import Mathlib

/-!
Shallow embedding of the user-authentication backend.

It models, from the source:
- the Google ID-token verifier's claim extraction and defaulting
  (`src/.../middleware/auth.ts`, `verifyGoogleToken`);
- the user record store (`src/.../models/users.ts`): the Mongoose schema's
  lowercase/trim setters, required/maxlength validators, the unique indexes
  on `googleId` and `email`, timestamps, and the active-only static lookups
  `findByGoogleId` / `findByEmail` / `existsByEmail`;
- the user service (`src/.../services/users.ts`): `authenticateWithGoogle`,
  `createUser`, `getUserById`, `updateUser`, `deactivateUser`,
  `existsByEmail`;
- the JWT session-token issuer/verifier (`generateJwtToken` /
  `verifyJwtToken`), with the third-party `jsonwebtoken` library modelled
  abstractly: a token carries its claims and validity window together with a
  signature value that binds the secret and the signed content, so that
  verification with the right secret recovers exactly the signed claims and
  any tampered or forged token is rejected;
- the HTTP pipeline: the `authenticateToken` middleware and the
  `UserController` handlers, giving one total function per public endpoint.

Machine state is a list of user records plus a counter for system-generated
internal ids (MongoDB ObjectIds are opaque and fresh; a counter realises
that). Time is an explicit `Nat` parameter wherever the source consults the
clock. Fallible operations return `Except`.
-/

namespace UserAuth

/-- JS `String.prototype.toLowerCase`, modelled characterwise over the
string's characters (ASCII case suffices for the model). -/
def lowerStr (s : String) : String := ⟨s.data.map Char.toLower⟩

/-- JS `String.prototype.trim`: strip leading and trailing whitespace. -/
def trimStr (s : String) : String :=
  ⟨((s.data.dropWhile Char.isWhitespace).reverse.dropWhile Char.isWhitespace).reverse⟩

instance {ε α : Type} [DecidableEq ε] [DecidableEq α] :
    DecidableEq (Except ε α) := fun
  | .error e, .error e' =>
    if h : e = e' then .isTrue (by rw [h])
    else .isFalse (fun hc => h (by cases hc; rfl))
  | .error _, .ok _ => .isFalse (fun hc => Except.noConfusion hc)
  | .ok _, .error _ => .isFalse (fun hc => Except.noConfusion hc)
  | .ok a, .ok a' =>
    if h : a = a' then .isTrue (by rw [h])
    else .isFalse (fun hc => h (by cases hc; rfl))

/-- Errors thrown by the service layer and its collaborators. Each
constructor corresponds to one distinct failure the source can raise:
`googleVerifyFailed` for a Google token the OAuth client rejects (or a
ticket without payload), `emailNotVerified` for "Email not verified with
Google", `userExists` for "User already exists with this email",
`duplicateKey` for a MongoDB unique-index violation, `validationFailed` for
a Mongoose schema-validation failure, `userNotFound` for "User not found".
The source wraps messages in context strings; the wrapping preserves which
failure occurred, so an enum suffices. -/
inductive Err where
  | googleVerifyFailed
  | emailNotVerified
  | userExists
  | duplicateKey
  | validationFailed
  | userNotFound
  deriving DecidableEq

/-- A stored user document (`IUser` in `types/users.ts` / the Mongoose
schema in `models/users.ts`). Timestamps are `Nat` instants. -/
structure UserRec where
  _id : Nat
  googleId : String
  email : String
  name : String
  picture : Option String
  isActive : Bool
  createdAt : Nat
  updatedAt : Nat
  deriving DecidableEq

/-- The users collection plus the generator for fresh internal ids. -/
structure DB where
  users : List UserRec
  nextId : Nat
  deriving DecidableEq

/-- `userSchema.statics.findByGoogleId`: `findOne({googleId, isActive: true})`. -/
def findByGoogleId (st : DB) (gid : String) : Option UserRec :=
  st.users.find? (fun r => r.googleId == gid && r.isActive)

/-- `userSchema.statics.findByEmail`:
`findOne({email: email.toLowerCase(), isActive: true})`. The query email is
lowercased but not trimmed, exactly as in the source. -/
def findByEmail (st : DB) (email : String) : Option UserRec :=
  st.users.find? (fun r => r.email == lowerStr email && r.isActive)

/-- `userSchema.statics.existsByEmail`:
`exists({email: email.toLowerCase(), isActive: true})`. -/
def existsByEmailStore (st : DB) (email : String) : Bool :=
  st.users.any (fun r => r.email == lowerStr email && r.isActive)

/-- Mongoose `findById`: lookup by `_id`, with no `isActive` filter. -/
def findById (st : DB) (uid : Nat) : Option UserRec :=
  st.users.find? (fun r => r._id == uid)

/-- Writing back a loaded document (`user.save()`): MongoDB updates the
document with the given `_id` in place. -/
def replaceById (l : List UserRec) (uid : Nat) (u' : UserRec) : List UserRec :=
  l.map (fun r => if r._id = uid then u' else r)

/-- `UserDto` / `transformUserToDto` in `types/users.ts`. The source maps
`picture: user.picture || undefined`, so a present-but-empty picture string
becomes absent in the view (JS falsiness). -/
structure UserDto where
  id : Nat
  email : String
  name : String
  picture : Option String
  isActive : Bool
  createdAt : Nat
  updatedAt : Nat
  deriving DecidableEq

def transformUserToDto (u : UserRec) : UserDto :=
  { id := u._id
    email := u.email
    name := u.name
    picture := match u.picture with
      | some p => if p = "" then none else some p
      | none => none
    isActive := u.isActive
    createdAt := u.createdAt
    updatedAt := u.updatedAt }

/-- `CreateUserData` in `types/users.ts`. -/
structure CreateUserData where
  googleId : String
  email : String
  name : String
  picture : Option String
  deriving DecidableEq

/-- `UpdateUserData` in `types/users.ts`. `none` means the field is absent
from the update object (the source tests `!== undefined`, which treats an
explicitly-undefined field and an absent field identically). -/
structure UpdateUserData where
  name : Option String
  picture : Option String
  isActive : Option Bool
  deriving DecidableEq

/-- `GoogleTokenPayload` in `types/common.ts`: the claims returned by
`verifyGoogleToken` after defaulting. -/
structure GoogleTokenPayload where
  sub : String
  email : String
  email_verified : Bool
  name : String
  picture : Option String
  given_name : Option String
  family_name : Option String
  iat : Nat
  exp : Nat
  aud : String
  iss : String
  deriving DecidableEq

/-- The raw `TokenPayload` handed back by the google-auth-library ticket,
in which `email`, `email_verified`, `name`, `picture`, `given_name`,
`family_name`, `iat` and `exp` are all optional. -/
structure RawGooglePayload where
  sub : String
  email : Option String
  email_verified : Option Bool
  name : Option String
  picture : Option String
  given_name : Option String
  family_name : Option String
  iat : Option Nat
  exp : Option Nat
  aud : String
  iss : String
  deriving DecidableEq

/-- `verifyGoogleToken` in `middleware/auth.ts`. The call into the external
OAuth client (`googleClient.verifyIdToken` and `ticket.getPayload()`) is the
function's input: `.error` when the client throws (bad signature, audience
or expiry), `.ok none` when the ticket has no payload; both surface as a
verification failure. On success the source defaults each optional claim
with JS `||`, whose result coincides with `Option.getD` here because every
default used (`""`, `false`, `0`) is itself the falsy value of its type. -/
def verifyGoogleToken (ticket : Except Unit (Option RawGooglePayload)) :
    Except Err GoogleTokenPayload :=
  match ticket with
  | .error _ => .error .googleVerifyFailed
  | .ok none => .error .googleVerifyFailed
  | .ok (some p) =>
    .ok { sub := p.sub
          email := p.email.getD ""
          email_verified := p.email_verified.getD false
          name := p.name.getD ""
          picture := p.picture
          given_name := p.given_name
          family_name := p.family_name
          iat := p.iat.getD 0
          exp := p.exp.getD 0
          aud := p.aud
          iss := p.iss }

/-- The claim set of a session token (`JwtPayload` in `types/common.ts`,
minus the `iat`/`exp` the library adds, which live on the token itself). -/
structure JwtClaims where
  userId : Nat
  email : String
  deriving DecidableEq

/-- A signed session token, modelling the output of `jwt.sign`: claims, the
issue/expiry instants, and a signature value binding the secret to the
signed content (tamper-evidence by construction). -/
structure JwtToken where
  payload : JwtClaims
  iat : Nat
  exp : Nat
  sig : String × JwtClaims × Nat × Nat
  deriving DecidableEq

inductive JwtErr where
  | tokenInvalid
  | tokenExpired
  deriving DecidableEq

/-- `generateJwtToken` in `middleware/auth.ts`: `jwt.sign(payload, secret,
{expiresIn})`. `d` is the configured validity duration
(`environment.jwtExpiresIn`) and `now` the issue instant. -/
def generateJwtToken (secret : String) (userId : Nat) (email : String)
    (now d : Nat) : JwtToken :=
  { payload := ⟨userId, email⟩
    iat := now
    exp := now + d
    sig := (secret, ⟨userId, email⟩, now, now + d) }

/-- `verifyJwtToken` in `middleware/auth.ts`: `jwt.verify(token, secret)`.
The library first checks the signature, then rejects tokens whose expiry is
not in the future. -/
def verifyJwtToken (secret : String) (now : Nat) (tok : JwtToken) :
    Except JwtErr JwtClaims :=
  if tok.sig = (secret, tok.payload, tok.iat, tok.exp) then
    if tok.exp ≤ now then .error .tokenExpired else .ok tok.payload
  else .error .tokenInvalid

/-- The schema's email setters: `lowercase: true` then `trim: true`
(the pre-save hook lowercases again, which is a no-op after the setter). -/
def normEmail (e : String) : String := trimStr (lowerStr e)

/-- `UserService.createUser`. The service first repeats the business check
`User.findByEmail` (active records only); then `new User(data).save()` runs
the schema setters (email lowercased and trimmed, name trimmed), the
schema validators (`required` on googleId/email/name — which fails on empty
strings — and `maxlength: 100` on name), and the insert, which MongoDB
rejects with a duplicate-key error when any existing document already holds
the same `googleId` or the same normalised `email` (the schema's two unique
indexes). A fresh document gets `isActive := true` (schema default) and
`createdAt = updatedAt = now` (timestamps).

`newUserRec` is the document `new User(data)` builds: schema setters
applied, `isActive` defaulted, timestamps set at the save instant, `_id`
freshly generated. -/
def newUserRec (st : DB) (now : Nat) (data : CreateUserData) : UserRec :=
  { _id := st.nextId, googleId := data.googleId, email := normEmail data.email
    name := trimStr data.name, picture := data.picture, isActive := true
    createdAt := now, updatedAt := now }

def createUser (st : DB) (now : Nat) (data : CreateUserData) :
    Except Err (UserRec × DB) :=
  match findByEmail st data.email with
  | some _ => .error .userExists
  | none =>
    if data.googleId = "" ∨ normEmail data.email = "" ∨ trimStr data.name = ""
        ∨ (trimStr data.name).length > 100 then
      .error .validationFailed
    else if st.users.any (fun r =>
        r.googleId == data.googleId || r.email == normEmail data.email) then
      .error .duplicateKey
    else
      .ok (newUserRec st now data,
           ⟨st.users ++ [newUserRec st now data], st.nextId + 1⟩)

/-- `UserService.updateUser`. Loads by id (no active filter), applies only
the fields present in the update object (name through the trim setter), and
saves. Mongoose change tracking: assigning a path its current value does
not mark it modified, and `save()` on an unmodified document performs no
write at all — in particular `updatedAt` is only refreshed when some field
actually changed. A modified name is re-validated (`required`,
`maxlength`).

`updName` is the name after `if (updateData.name !== undefined)
user.name = ...` (through the schema's trim setter). -/
def updName (u : UserRec) (upd : UpdateUserData) : String :=
  match upd.name with
  | some n => trimStr n
  | none => u.name

/-- The picture after the conditional assignment. -/
def updPicture (u : UserRec) (upd : UpdateUserData) : Option String :=
  match upd.picture with
  | some p => some p
  | none => u.picture

/-- The active flag after the conditional assignment. -/
def updActive (u : UserRec) (upd : UpdateUserData) : Bool :=
  match upd.isActive with
  | some b => b
  | none => u.isActive

/-- The document as written back by a modifying `save()`: conditionally
assigned fields plus the refreshed `updatedAt` timestamp. -/
def applyUpdate (u : UserRec) (upd : UpdateUserData) (now : Nat) : UserRec :=
  { u with name := updName u upd, picture := updPicture u upd
           isActive := updActive u upd, updatedAt := now }

def updateUser (st : DB) (now : Nat) (uid : Nat) (upd : UpdateUserData) :
    Except Err (UserRec × DB) :=
  match findById st uid with
  | none => .error .userNotFound
  | some u =>
    if updName u upd = u.name ∧ updPicture u upd = u.picture
        ∧ updActive u upd = u.isActive then
      .ok (u, st)
    else if updName u upd = "" ∨ (updName u upd).length > 100 then
      .error .validationFailed
    else
      .ok (applyUpdate u upd now,
           ⟨replaceById st.users uid (applyUpdate u upd now), st.nextId⟩)

/-- `UserService.deactivateUser`: load by id, set `isActive := false`,
save. Setting the flag on an already-inactive document marks nothing
modified, so the save writes nothing. -/
def deactivateUser (st : DB) (now : Nat) (uid : Nat) : Except Err DB :=
  match findById st uid with
  | none => .error .userNotFound
  | some u =>
    if u.isActive then
      .ok ⟨replaceById st.users uid { u with isActive := false, updatedAt := now }, st.nextId⟩
    else
      .ok st

/-- `UserService.getUserById`: `User.findById` then DTO transform; `null`
when absent (no active filter, faithful to the source). -/
def getUserById (st : DB) (uid : Nat) : Option UserDto :=
  (findById st uid).map transformUserToDto

/-- `UserService.existsByEmail` delegates to the store. -/
def existsByEmailService (st : DB) (email : String) : Bool :=
  existsByEmailStore st email

/-- `AuthResponse` in `types/users.ts`. -/
structure AuthResponse where
  user : UserDto
  token : JwtToken
  deriving DecidableEq

/-- `UserService.authenticateWithGoogle`. `ticket` stands for the outcome
of the external Google verification performed on the submitted id-token;
`secret`/`d` are the JWT configuration; `now` the current instant. The
returned state is the store after the call's single create-or-update side
effect; on error no state is produced (every throw happens before or
instead of a successful save). -/
def authenticateWithGoogle (st : DB) (now : Nat)
    (ticket : Except Unit (Option RawGooglePayload)) (secret : String)
    (d : Nat) : Except Err (AuthResponse × DB) :=
  match verifyGoogleToken ticket with
  | .error e => .error e
  | .ok p =>
    if !p.email_verified then .error .emailNotVerified
    else
      match findByGoogleId st p.sub with
      | none =>
        match createUser st now ⟨p.sub, p.email, p.name, p.picture⟩ with
        | .error e => .error e
        | .ok (u, st') =>
          .ok (⟨transformUserToDto u, generateJwtToken secret u._id u.email now d⟩, st')
      | some u0 =>
        match updateUser st now u0._id ⟨some p.name, p.picture, none⟩ with
        | .error e => .error e
        | .ok (u, st') =>
          .ok (⟨transformUserToDto u, generateJwtToken secret u._id u.email now d⟩, st')

/-- Store state after `authenticateWithGoogle` (unchanged on error). -/
def authState (st : DB) (now : Nat) (ticket : Except Unit (Option RawGooglePayload))
    (secret : String) (d : Nat) : DB :=
  match authenticateWithGoogle st now ticket secret d with
  | .ok (_, st') => st'
  | .error _ => st

/-- Store state after `createUser` (unchanged on error). -/
def createUserState (st : DB) (now : Nat) (data : CreateUserData) : DB :=
  match createUser st now data with
  | .ok (_, st') => st'
  | .error _ => st

/-- Store state after `deactivateUser` (unchanged on error). -/
def deactivateUserState (st : DB) (now : Nat) (uid : Nat) : DB :=
  match deactivateUser st now uid with
  | .ok st' => st'
  | .error _ => st

/-- The `authenticateToken` middleware: verify the bearer token, then check
the referenced user still exists and is active; any failure is a 401. -/
def authenticateTokenMW (st : DB) (secret : String) (now : Nat)
    (tok : JwtToken) : Option JwtClaims :=
  match verifyJwtToken secret now tok with
  | .error _ => none
  | .ok decoded =>
    match findById st decoded.userId with
    | some u => if u.isActive then some decoded else none
    | none => none

/-- HTTP outcome of an endpoint, per the controllers' status mapping. -/
inductive ApiResult (α : Type) where
  | ok : α → ApiResult α
  | unauthorized : ApiResult α
  | notFound : ApiResult α
  | serverError : ApiResult α
  deriving DecidableEq

/-- GET /profile: middleware, then `UserController.getCurrentUser`
(404 only when the service returns `null`). -/
def getProfileApi (st : DB) (secret : String) (now : Nat) (tok : JwtToken) :
    ApiResult UserDto :=
  match authenticateTokenMW st secret now tok with
  | none => .unauthorized
  | some decoded =>
    match getUserById st decoded.userId with
    | none => .notFound
    | some dto => .ok dto

/-- PUT /profile: middleware, then `UserController.updateCurrentUser`
(service errors become 500). -/
def updateProfileApi (st : DB) (secret : String) (now : Nat) (tok : JwtToken)
    (upd : UpdateUserData) : ApiResult UserDto × DB :=
  match authenticateTokenMW st secret now tok with
  | none => (.unauthorized, st)
  | some decoded =>
    match updateUser st now decoded.userId upd with
    | .error _ => (.serverError, st)
    | .ok (u', st') => (.ok (transformUserToDto u'), st')

/-- DELETE /profile: middleware, then `UserController.deactivateCurrentUser`. -/
def deactivateProfileApi (st : DB) (secret : String) (now : Nat)
    (tok : JwtToken) : ApiResult Unit × DB :=
  match authenticateTokenMW st secret now tok with
  | none => (.unauthorized, st)
  | some decoded =>
    match deactivateUser st now decoded.userId with
    | .error _ => (.serverError, st)
    | .ok st' => (.ok (), st')

/-- POST /auth/signout: middleware, then a stateless 200. -/
def signOutApi (st : DB) (secret : String) (now : Nat) (tok : JwtToken) :
    ApiResult Unit :=
  match authenticateTokenMW st secret now tok with
  | none => .unauthorized
  | some _ => .ok ()

/-- GET /exists: `UserController.checkUserExists` (read-only). -/
def checkUserExistsApi (st : DB) (email : String) : ApiResult Bool :=
  .ok (existsByEmailService st email)

/-- One invocation of a public endpoint, with the request data and the
instant at which it runs. -/
inductive PublicOp where
  | auth (ticket : Except Unit (Option RawGooglePayload)) (now : Nat)
  | getProfile (tok : JwtToken) (now : Nat)
  | updateProfile (tok : JwtToken) (upd : UpdateUserData) (now : Nat)
  | deactivateProfile (tok : JwtToken) (now : Nat)
  | signOut (tok : JwtToken) (now : Nat)
  | existsByEmail (email : String)

/-- Store state after one public-endpoint invocation. The read-only
endpoints (GET /profile, POST /auth/signout, GET /exists) never touch the
store. -/
def step (secret : String) (d : Nat) (st : DB) (op : PublicOp) : DB :=
  match op with
  | .auth ticket now => authState st now ticket secret d
  | .getProfile _ _ => st
  | .updateProfile tok upd now => (updateProfileApi st secret now tok upd).2
  | .deactivateProfile tok now => (deactivateProfileApi st secret now tok).2
  | .signOut _ _ => st
  | .existsByEmail _ => st

/-- Store state after a sequence of public-endpoint invocations. -/
def runOps (secret : String) (d : Nat) (st : DB) (ops : List PublicOp) : DB :=
  ops.foldl (step secret d) st

/-- Store well-formedness: internal ids are pairwise distinct and below the
freshness counter — what MongoDB guarantees for `_id`. -/
def Inv (st : DB) : Prop :=
  (st.users.map (fun r => r._id)).Nodup ∧ ∀ r ∈ st.users, r._id < st.nextId

instance (st : DB) : Decidable (Inv st) := by
  unfold Inv; infer_instance

/-! ### Store lemmas -/

theorem findById_spec {st : DB} {uid : Nat} {u : UserRec}
    (h : findById st uid = some u) : u ∈ st.users ∧ u._id = uid := by
  refine ⟨List.mem_of_find?_eq_some h, ?_⟩
  have h1 := List.find?_some h
  simpa using h1

theorem findByGoogleId_spec {st : DB} {gid : String} {u : UserRec}
    (h : findByGoogleId st gid = some u) :
    u ∈ st.users ∧ u.googleId = gid ∧ u.isActive = true := by
  have h1 := List.find?_some h
  have h2 := List.mem_of_find?_eq_some h
  simp only [Bool.and_eq_true, beq_iff_eq] at h1
  exact ⟨h2, h1.1, h1.2⟩

theorem find_id_of_mem {l : List UserRec} {u : UserRec}
    (hnd : (l.map (fun r => r._id)).Nodup) (hm : u ∈ l) :
    l.find? (fun r => r._id == u._id) = some u := by
  induction l with
  | nil => cases hm
  | cons a t ih =>
    simp only [List.map_cons, List.nodup_cons] at hnd
    rcases List.mem_cons.mp hm with h | h
    · subst h
      exact List.find?_cons_of_pos _ (by simp)
    · have hne : a._id ≠ u._id := by
        intro he
        exact hnd.1 (he ▸ List.mem_map.mpr ⟨u, h, rfl⟩)
      rw [List.find?_cons_of_neg _ (by simp [hne])]
      exact ih hnd.2 h

theorem findById_of_mem {st : DB} {u : UserRec}
    (hnd : (st.users.map (fun r => r._id)).Nodup) (hm : u ∈ st.users) :
    findById st u._id = some u :=
  find_id_of_mem hnd hm

theorem mem_replaceById_of_ne {l : List UserRec} {r : UserRec} {uid : Nat}
    {u' : UserRec} (hm : r ∈ l) (hne : r._id ≠ uid) :
    r ∈ replaceById l uid u' := by
  have he : (fun x => if x._id = uid then u' else x) r = r := by simp [hne]
  exact he ▸ List.mem_map_of_mem _ hm

theorem mem_replaceById_cases {l : List UserRec} {r' : UserRec} {uid : Nat}
    {u' : UserRec} (h : r' ∈ replaceById l uid u') : r' = u' ∨ r' ∈ l := by
  rcases List.mem_map.mp h with ⟨a, ha, hfa⟩
  by_cases hc : a._id = uid
  · left; rw [if_pos hc] at hfa; exact hfa.symm
  · right; rw [if_neg hc] at hfa; exact hfa ▸ ha

theorem mem_replaceById_strong {l : List UserRec} {r' : UserRec} {uid : Nat}
    {u' : UserRec} (h : r' ∈ replaceById l uid u') :
    r' = u' ∨ (r' ∈ l ∧ r'._id ≠ uid) := by
  rcases List.mem_map.mp h with ⟨a, ha, hfa⟩
  by_cases hc : a._id = uid
  · left; rw [if_pos hc] at hfa; exact hfa.symm
  · right
    rw [if_neg hc] at hfa
    subst hfa
    exact ⟨ha, hc⟩

theorem replaceById_map_id {l : List UserRec} {uid : Nat} {u' : UserRec}
    (h : u'._id = uid) :
    (replaceById l uid u').map (fun r => r._id) = l.map (fun r => r._id) := by
  unfold replaceById
  rw [List.map_map]
  apply List.map_congr_left
  intro a _
  by_cases hc : a._id = uid <;> simp [hc, h]

theorem find_replaceById_self {l : List UserRec} {uid : Nat} {u u' : UserRec}
    (hf : l.find? (fun r => r._id == uid) = some u) (hid : u'._id = uid) :
    (replaceById l uid u').find? (fun r => r._id == uid) = some u' := by
  induction l with
  | nil => simp at hf
  | cons a t ih =>
    by_cases hc : a._id = uid
    · unfold replaceById
      rw [List.map_cons, if_pos hc]
      exact List.find?_cons_of_pos _ (by simp [hid])
    · rw [List.find?_cons_of_neg _ (by simp [hc])] at hf
      unfold replaceById
      rw [List.map_cons, if_neg hc]
      rw [List.find?_cons_of_neg _ (by simp [hc])]
      exact ih hf

theorem Inv_append_fresh {st : DB} {u : UserRec} (hInv : Inv st)
    (hid : u._id = st.nextId) :
    Inv ⟨st.users ++ [u], st.nextId + 1⟩ := by
  obtain ⟨hnd, hb⟩ := hInv
  constructor
  · rw [List.map_append, List.nodup_append]
    refine ⟨hnd, by simp, ?_⟩
    intro x hx hx2
    simp only [List.map_cons, List.map_nil, List.mem_singleton] at hx2
    rcases List.mem_map.mp hx with ⟨r, hr, hre⟩
    have hlt := hb r hr
    omega
  · intro r hr
    rcases List.mem_append.mp hr with h | h
    · exact Nat.lt_succ_of_lt (hb r h)
    · simp only [List.mem_singleton] at h
      subst h
      show r._id < st.nextId + 1
      omega

theorem Inv_replace {st : DB} {uid : Nat} {u u' : UserRec} (hInv : Inv st)
    (hf : findById st uid = some u) (hid : u'._id = uid) :
    Inv ⟨replaceById st.users uid u', st.nextId⟩ := by
  obtain ⟨hnd, hb⟩ := hInv
  obtain ⟨hm, hid2⟩ := findById_spec hf
  constructor
  · rw [replaceById_map_id hid]
    exact hnd
  · intro r hr
    rcases mem_replaceById_cases hr with h | h
    · subst h
      rw [hid, ← hid2]
      exact hb u hm
    · exact hb r h

/-- A record found active by id and one stored inactive cannot share the id
when ids are duplicate-free. -/
theorem id_ne_of_active_inactive {st : DB} {uid : Nat} {v r : UserRec}
    (hnd : (st.users.map (fun x => x._id)).Nodup)
    (hf : findById st uid = some v) (hva : v.isActive = true)
    (hr : r ∈ st.users) (hra : r.isActive = false) : r._id ≠ uid := by
  intro he
  obtain ⟨hvm, hvid⟩ := findById_spec hf
  have : r = v := List.inj_on_of_nodup_map hnd hr hvm (by rw [he, hvid])
  rw [this, hva] at hra
  cases hra

/-! ### Inversion lemmas for the service operations -/

theorem createUser_ok {st : DB} {now : Nat} {data : CreateUserData}
    {u : UserRec} {st' : DB}
    (h : createUser st now data = Except.ok (u, st')) :
    u._id = st.nextId ∧ st' = ⟨st.users ++ [u], st.nextId + 1⟩ := by
  unfold createUser at h
  split at h
  · exact Except.noConfusion h
  · split at h
    · exact Except.noConfusion h
    · split at h
      · exact Except.noConfusion h
      · simp only [Except.ok.injEq, Prod.mk.injEq] at h
        obtain ⟨h1, h2⟩ := h
        subst h1
        exact ⟨rfl, h2.symm⟩

theorem updateUser_ok {st : DB} {now uid : Nat} {upd : UpdateUserData}
    {u' : UserRec} {st' : DB}
    (h : updateUser st now uid upd = Except.ok (u', st')) :
    ∃ u, findById st uid = some u ∧ u'._id = u._id ∧
      u'.googleId = u.googleId ∧ u'.email = u.email ∧
      (st' = st ∨ st' = ⟨replaceById st.users uid u', st.nextId⟩) := by
  unfold updateUser at h
  split at h
  · exact Except.noConfusion h
  case _ u hf =>
    split at h
    · simp only [Except.ok.injEq, Prod.mk.injEq] at h
      obtain ⟨h1, h2⟩ := h
      subst h1
      exact ⟨u, hf, rfl, rfl, rfl, Or.inl h2.symm⟩
    · split at h
      · exact Except.noConfusion h
      · simp only [Except.ok.injEq, Prod.mk.injEq] at h
        obtain ⟨h1, h2⟩ := h
        subst h1
        exact ⟨u, hf, rfl, rfl, rfl, Or.inr h2.symm⟩

theorem updateUser_mem_replaced {st : DB} {now uid : Nat}
    {upd : UpdateUserData} {u' : UserRec} {st' : DB}
    (h : updateUser st now uid upd = Except.ok (u', st')) :
    u' ∈ st'.users := by
  unfold updateUser at h
  split at h
  · exact Except.noConfusion h
  case _ u hf =>
    obtain ⟨hm, hid⟩ := findById_spec hf
    split at h
    · simp only [Except.ok.injEq, Prod.mk.injEq] at h
      obtain ⟨h1, h2⟩ := h
      subst h1
      rw [← h2]
      exact hm
    · split at h
      · exact Except.noConfusion h
      · simp only [Except.ok.injEq, Prod.mk.injEq] at h
        obtain ⟨h1, h2⟩ := h
        subst h2
        subst h1
        have hmem := List.mem_map_of_mem
          (fun r => if r._id = uid then applyUpdate u upd now else r) hm
        simp only [hid, if_true, ite_true, if_pos] at hmem
        exact hmem

theorem updateUser_ok_cases {st : DB} {now uid : Nat} {upd : UpdateUserData}
    {u' : UserRec} {st' : DB}
    (h : updateUser st now uid upd = Except.ok (u', st')) :
    ∃ u, findById st uid = some u ∧
      ((u' = u ∧ st' = st) ∨
       (u' = applyUpdate u upd now ∧
        st' = ⟨replaceById st.users uid (applyUpdate u upd now), st.nextId⟩)) := by
  unfold updateUser at h
  split at h
  · exact Except.noConfusion h
  case _ u hf =>
    split at h
    · simp only [Except.ok.injEq, Prod.mk.injEq] at h
      exact ⟨u, hf, Or.inl ⟨h.1.symm, h.2.symm⟩⟩
    · split at h
      · exact Except.noConfusion h
      · simp only [Except.ok.injEq, Prod.mk.injEq] at h
        exact ⟨u, hf, Or.inr ⟨h.1.symm, h.2.symm⟩⟩

theorem deactivateUser_ok {st : DB} {now uid : Nat} {st' : DB}
    (h : deactivateUser st now uid = Except.ok st') :
    ∃ u, findById st uid = some u ∧
      (st' = st ∨
       st' = ⟨replaceById st.users uid { u with isActive := false, updatedAt := now }, st.nextId⟩) := by
  unfold deactivateUser at h
  split at h
  · exact Except.noConfusion h
  case _ u hf =>
    split at h
    · simp only [Except.ok.injEq] at h
      exact ⟨u, hf, Or.inr h.symm⟩
    · simp only [Except.ok.injEq] at h
      exact ⟨u, hf, Or.inl h.symm⟩

theorem authenticateTokenMW_some {st : DB} {secret : String} {now : Nat}
    {tok : JwtToken} {decoded : JwtClaims}
    (h : authenticateTokenMW st secret now tok = some decoded) :
    ∃ v, findById st decoded.userId = some v ∧ v.isActive = true := by
  unfold authenticateTokenMW at h
  split at h
  · exact Option.noConfusion h
  case _ d0 _ =>
    split at h
    case _ v hf =>
      split at h
      case isTrue hact =>
        simp only [Option.some.injEq] at h
        subst h
        exact ⟨v, hf, hact⟩
      case isFalse => exact Option.noConfusion h
    · exact Option.noConfusion h

theorem authenticateWithGoogle_ok {st : DB} {now : Nat}
    {ticket : Except Unit (Option RawGooglePayload)} {secret : String}
    {d : Nat} {resp : AuthResponse} {st' : DB}
    (h : authenticateWithGoogle st now ticket secret d = Except.ok (resp, st')) :
    (∃ data u, createUser st now data = Except.ok (u, st')) ∨
    (∃ gid u0 upd u', findByGoogleId st gid = some u0 ∧
      updateUser st now u0._id upd = Except.ok (u', st')) := by
  unfold authenticateWithGoogle at h
  split at h
  · exact Except.noConfusion h
  case _ p _ =>
    split at h
    · exact Except.noConfusion h
    · split at h
      · split at h
        · exact Except.noConfusion h
        case _ u st0 hc =>
          simp only [Except.ok.injEq, Prod.mk.injEq] at h
          obtain ⟨-, h2⟩ := h
          exact Or.inl ⟨_, u, h2 ▸ hc⟩
      case _ u0 hf =>
        split at h
        · exact Except.noConfusion h
        case _ u st0 hc =>
          simp only [Except.ok.injEq, Prod.mk.injEq] at h
          obtain ⟨-, h2⟩ := h
          exact Or.inr ⟨_, u0, _, u, hf, h2 ▸ hc⟩

/-- Verifying a freshly issued token with the issuing secret, before its
expiry, recovers the signed claims. -/
theorem jwt_verify_generate (secret : String) (userId : Nat) (email : String)
    (now d now2 : Nat) (h : now2 < now + d) :
    verifyJwtToken secret now2 (generateJwtToken secret userId email now d)
      = Except.ok ⟨userId, email⟩ := by
  unfold generateJwtToken verifyJwtToken
  rw [if_pos rfl]
  rw [if_neg (by simpa using by omega)]

/-- A successful verification returns exactly the token's own claims. -/
theorem verifyJwtToken_ok {secret : String} {now : Nat} {tok : JwtToken}
    {c : JwtClaims} (h : verifyJwtToken secret now tok = Except.ok c) :
    c = tok.payload := by
  unfold verifyJwtToken at h
  split at h
  · split at h
    · exact Except.noConfusion h
    · injection h with h1
      exact h1.symm
  · exact Except.noConfusion h

/-- An update addressed at some other id leaves a record in place and
preserves well-formedness. -/
theorem update_target_preserves {st : DB} {now uid : Nat}
    {upd : UpdateUserData} {u' : UserRec} {st' : DB} {r : UserRec}
    (hInv : Inv st) (hr : r ∈ st.users) (hne : r._id ≠ uid)
    (hup : updateUser st now uid upd = Except.ok (u', st')) :
    r ∈ st'.users ∧ Inv st' := by
  obtain ⟨v, hfv, hvid, -, -, hcases⟩ := updateUser_ok hup
  rcases hcases with h | h
  · subst h
    exact ⟨hr, hInv⟩
  · subst h
    refine ⟨mem_replaceById_of_ne hr hne, ?_⟩
    apply Inv_replace hInv hfv
    rw [hvid, (findById_spec hfv).2]

/-- A deactivation addressed at some other id leaves a record in place and
preserves well-formedness. -/
theorem deactivate_target_preserves {st : DB} {now uid : Nat} {st' : DB}
    {r : UserRec} (hInv : Inv st) (hr : r ∈ st.users) (hne : r._id ≠ uid)
    (hde : deactivateUser st now uid = Except.ok st') :
    r ∈ st'.users ∧ Inv st' := by
  obtain ⟨u, hf, hcases⟩ := deactivateUser_ok hde
  rcases hcases with h | h
  · subst h
    exact ⟨hr, hInv⟩
  · subst h
    refine ⟨mem_replaceById_of_ne hr hne, Inv_replace hInv hf ?_⟩
    show u._id = uid
    exact (findById_spec hf).2

/-- The middleware only lets a request through for a user whose record is
active, so its target id differs from every inactive record's id. -/
theorem mw_target_ne {st : DB} {secret : String} {now : Nat}
    {tok : JwtToken} {dec : JwtClaims} {r : UserRec}
    (hInv : Inv st) (hm : authenticateTokenMW st secret now tok = some dec)
    (hr : r ∈ st.users) (hact : r.isActive = false) :
    r._id ≠ dec.userId := by
  obtain ⟨v, hf, hva⟩ := authenticateTokenMW_some hm
  exact id_ne_of_active_inactive hInv.1 hf hva hr hact

/-- `findByGoogleId` only returns active records, so its result's id
differs from every inactive record's id. -/
theorem google_target_ne {st : DB} {gid : String} {u0 r : UserRec}
    (hInv : Inv st) (hf : findByGoogleId st gid = some u0)
    (hr : r ∈ st.users) (hact : r.isActive = false) :
    r._id ≠ u0._id := by
  obtain ⟨hm0, -, ha0⟩ := findByGoogleId_spec hf
  intro he
  have hequ : r = u0 := List.inj_on_of_nodup_map hInv.1 hr hm0 he
  rw [hequ, ha0] at hact
  cases hact

/-- One public-endpoint invocation keeps every inactive record in the
store, untouched, and preserves well-formedness. -/
theorem step_preserves_inactive (secret : String) (d : Nat) (op : PublicOp)
    (st : DB) (r : UserRec) (hInv : Inv st) (hr : r ∈ st.users)
    (hact : r.isActive = false) :
    r ∈ (step secret d st op).users ∧ Inv (step secret d st op) := by
  cases op with
  | auth ticket now =>
    show r ∈ (authState st now ticket secret d).users ∧
      Inv (authState st now ticket secret d)
    unfold authState
    cases hres : authenticateWithGoogle st now ticket secret d with
    | error e => exact ⟨hr, hInv⟩
    | ok pair =>
      obtain ⟨resp, st2⟩ := pair
      rcases authenticateWithGoogle_ok hres with
        ⟨data, u, hc⟩ | ⟨gid, u0, upd, u', hfg, hup⟩
      · obtain ⟨hid, hst⟩ := createUser_ok hc
        subst hst
        exact ⟨List.mem_append_left _ hr, Inv_append_fresh hInv hid⟩
      · exact update_target_preserves hInv hr
          (google_target_ne hInv hfg hr hact) hup
  | getProfile tok now => exact ⟨hr, hInv⟩
  | updateProfile tok upd now =>
    show r ∈ (updateProfileApi st secret now tok upd).2.users ∧
      Inv (updateProfileApi st secret now tok upd).2
    unfold updateProfileApi
    cases hm : authenticateTokenMW st secret now tok with
    | none => exact ⟨hr, hInv⟩
    | some dec =>
      dsimp only
      cases hup : updateUser st now dec.userId upd with
      | error e => exact ⟨hr, hInv⟩
      | ok pair =>
        obtain ⟨u', st2⟩ := pair
        exact update_target_preserves hInv hr
          (mw_target_ne hInv hm hr hact) hup
  | deactivateProfile tok now =>
    show r ∈ (deactivateProfileApi st secret now tok).2.users ∧
      Inv (deactivateProfileApi st secret now tok).2
    unfold deactivateProfileApi
    cases hm : authenticateTokenMW st secret now tok with
    | none => exact ⟨hr, hInv⟩
    | some dec =>
      dsimp only
      cases hde : deactivateUser st now dec.userId with
      | error e => exact ⟨hr, hInv⟩
      | ok st2 =>
        exact deactivate_target_preserves hInv hr
          (mw_target_ne hInv hm hr hact) hde
  | signOut tok now => exact ⟨hr, hInv⟩
  | existsByEmail e => exact ⟨hr, hInv⟩

/-- A create call on which the business email check, the validators and
both unique indexes pass inserts exactly the one new document. -/
theorem createUser_success {st : DB} {now : Nat} {data : CreateUserData}
    (hfe : findByEmail st data.email = none)
    (h1 : data.googleId ≠ "") (h2 : normEmail data.email ≠ "")
    (h3 : trimStr data.name ≠ "") (h4 : (trimStr data.name).length ≤ 100)
    (hany : (st.users.any fun r =>
      r.googleId == data.googleId || r.email == normEmail data.email)
        = false) :
    createUser st now data = Except.ok (newUserRec st now data,
      ⟨st.users ++ [newUserRec st now data], st.nextId + 1⟩) := by
  unfold createUser
  rw [hfe]
  dsimp only
  rw [if_neg (by push_neg; exact ⟨h1, h2, h3, by omega⟩)]
  rw [if_neg (by simp [hany])]

/-! ### Concrete values used by witnesses and counterexamples -/

/-- An active stored user. -/
def userA : UserRec := ⟨0, "g-1", "a@x.com", "A", none, true, 0, 0⟩

/-- A one-user store holding `userA`. -/
def stA : DB := ⟨[userA], 1⟩

/-- A session token issued for `userA` (id 0), valid until instant 100. -/
def tokA : JwtToken := generateJwtToken "s" 0 "a@x.com" 0 100

/-- A deactivated stored user. -/
def userZ : UserRec := ⟨5, "g-5", "z@x.com", "Z", none, false, 0, 0⟩

/-- A store holding the active `userA` and the deactivated `userZ`. -/
def stAZ : DB := ⟨[userA, userZ], 6⟩

/-! ### Claims -/

/-- C4: for every valid userId/email pair, verifying a token produced by
issue — `verifyJwtToken (generateJwtToken userId email)` evaluated before
the token's expiry — succeeds and returns exactly that userId and email. -/
theorem c4_jwt_roundtrip (secret : String) (userId : Nat) (email : String)
    (now d now2 : Nat) (h : now2 < now + d) :
    verifyJwtToken secret now2 (generateJwtToken secret userId email now d)
      = Except.ok ⟨userId, email⟩ :=
  jwt_verify_generate secret userId email now d now2 h

/-- C4 witness: a concrete issue/verify round trip before expiry. -/
theorem c4_jwt_roundtrip_witness :
    verifyJwtToken "k" 3 (generateJwtToken "k" 7 "u@e.com" 1 10)
      = Except.ok ⟨7, "u@e.com"⟩ :=
  c4_jwt_roundtrip "k" 7 "u@e.com" 1 10 3 (by decide)

/-- C3: an assertion whose email-verified claim is false (or absent, which
defaults to false) makes authenticate fail with the email-not-verified
error, whatever the other claims hold, and leaves the store untouched. -/
theorem c3_unverified_email_rejected (st : DB) (now : Nat)
    (raw : RawGooglePayload) (secret : String) (d : Nat)
    (h : raw.email_verified.getD false = false) :
    authenticateWithGoogle st now (Except.ok (some raw)) secret d
      = Except.error Err.emailNotVerified ∧
    authState st now (Except.ok (some raw)) secret d = st := by
  have h1 : authenticateWithGoogle st now (Except.ok (some raw)) secret d
      = Except.error Err.emailNotVerified := by
    unfold authenticateWithGoogle verifyGoogleToken
    simp [h]
  refine ⟨h1, ?_⟩
  unfold authState
  rw [h1]

/-- C3 witness: a concrete assertion with `email_verified: false` and all
other claims well-formed is rejected without touching a nonempty store. -/
theorem c3_unverified_email_rejected_witness :
    authenticateWithGoogle stA 5
        (Except.ok (some ⟨"g-9", some "b@y.com", some false, some "B", none,
          none, none, some 0, some 99, "aud", "iss"⟩)) "s" 100
      = Except.error Err.emailNotVerified ∧
    authState stA 5
        (Except.ok (some ⟨"g-9", some "b@y.com", some false, some "B", none,
          none, none, some 0, some 99, "aud", "iss"⟩)) "s" 100 = stA :=
  c3_unverified_email_rejected stA 5 _ "s" 100 (by decide)

/-- C10: a Google payload with the email-verified claim absent is defaulted
to `false` by the verifier — so authenticate rejects it as unverified — and
an absent email claim is defaulted to the empty string rather than making
verification fail. -/
theorem c10_google_claim_defaults (st : DB) (now : Nat)
    (raw : RawGooglePayload) (secret : String) (d : Nat) :
    (raw.email_verified = none →
      (∃ p, verifyGoogleToken (Except.ok (some raw)) = Except.ok p ∧
        p.email_verified = false) ∧
      authenticateWithGoogle st now (Except.ok (some raw)) secret d
        = Except.error Err.emailNotVerified) ∧
    (raw.email = none →
      ∃ p, verifyGoogleToken (Except.ok (some raw)) = Except.ok p ∧
        p.email = "") := by
  constructor
  · intro h
    constructor
    · exact ⟨_, rfl, by simp [h]⟩
    · unfold authenticateWithGoogle verifyGoogleToken
      simp [h]
  · intro h
    exact ⟨_, rfl, by simp [h]⟩

/-- C10 witness: a concrete payload missing both the email and the
email-verified claims. -/
theorem c10_google_claim_defaults_witness :
    ((⟨"g-7", none, none, some "N", none, none, none, none, none, "aud",
        "iss"⟩ : RawGooglePayload).email_verified = none →
      (∃ p, verifyGoogleToken (Except.ok (some
          (⟨"g-7", none, none, some "N", none, none, none, none, none, "aud",
            "iss"⟩ : RawGooglePayload))) = Except.ok p ∧
        p.email_verified = false) ∧
      authenticateWithGoogle stA 0 (Except.ok (some
          (⟨"g-7", none, none, some "N", none, none, none, none, none, "aud",
            "iss"⟩ : RawGooglePayload))) "s" 10
        = Except.error Err.emailNotVerified) ∧
    ((⟨"g-7", none, none, some "N", none, none, none, none, none, "aud",
        "iss"⟩ : RawGooglePayload).email = none →
      ∃ p, verifyGoogleToken (Except.ok (some
          (⟨"g-7", none, none, some "N", none, none, none, none, none, "aud",
            "iss"⟩ : RawGooglePayload))) = Except.ok p ∧
        p.email = "") :=
  c10_google_claim_defaults stA 0 _ "s" 10

/-- C5: creating a user whose email matches (case-insensitively) the email
of an existing active record — stored lowercase at write time — fails with
the duplicate-email error, and the store (in particular the original
record) is left completely unchanged. -/
theorem c5_duplicate_email_create (st : DB) (now : Nat)
    (data : CreateUserData) (r : UserRec)
    (hr : r ∈ st.users) (hact : r.isActive = true)
    (hlow : lowerStr r.email = r.email)
    (hsame : lowerStr data.email = lowerStr r.email) :
    createUser st now data = Except.error Err.userExists ∧
    createUserState st now data = st := by
  have hpred : (r.email == lowerStr data.email && r.isActive) = true := by
    rw [hsame, hlow, hact]
    simp
  have hfind : ∃ x, findByEmail st data.email = some x := by
    cases hfe : findByEmail st data.email with
    | none => exact absurd hpred (by simpa using List.find?_eq_none.mp hfe r hr)
    | some x => exact ⟨x, rfl⟩
  obtain ⟨x, hx⟩ := hfind
  have h1 : createUser st now data = Except.error Err.userExists := by
    unfold createUser
    rw [hx]
  refine ⟨h1, ?_⟩
  unfold createUserState
  rw [h1]

/-- C5 witness: creating a second record with `A@X.com` against a store
holding an active record with `a@x.com`. -/
theorem c5_duplicate_email_create_witness :
    createUser stA 3 ⟨"g-2", "A@X.com", "Bob", none⟩
      = Except.error Err.userExists ∧
    createUserState stA 3 ⟨"g-2", "A@X.com", "Bob", none⟩ = stA :=
  c5_duplicate_email_create stA 3 _ userA (by decide) (by decide) (by decide)
    (by decide)

/-- C6: updating an existing record with an empty update object returns the
record and the store entirely unchanged (nothing is marked modified, so the
save writes nothing — every field other than `updatedAt` is untouched as
the claim states, and in fact `updatedAt` is too); and in general a partial
update never touches fields absent from the update object, nor the email,
googleId and internal id. -/
theorem c6_update_partial_frame (st : DB) (now uid : Nat) (u : UserRec)
    (hfind : findById st uid = some u) :
    updateUser st now uid ⟨none, none, none⟩ = Except.ok (u, st) ∧
    ∀ upd u' st', updateUser st now uid upd = Except.ok (u', st') →
      (upd.name = none → u'.name = u.name) ∧
      (upd.picture = none → u'.picture = u.picture) ∧
      (upd.isActive = none → u'.isActive = u.isActive) ∧
      u'.email = u.email ∧ u'.googleId = u.googleId ∧ u'._id = u._id := by
  constructor
  · simp only [updateUser, hfind]
    rw [if_pos ⟨rfl, rfl, rfl⟩]
  · intro upd u' st' h
    obtain ⟨u0, hf0, hcases⟩ := updateUser_ok_cases h
    rw [hfind] at hf0
    injection hf0 with hu0
    subst hu0
    rcases hcases with ⟨h1, -⟩ | ⟨h1, -⟩
    · subst h1
      exact ⟨fun _ => rfl, fun _ => rfl, fun _ => rfl, rfl, rfl, rfl⟩
    · subst h1
      refine ⟨?_, ?_, ?_, rfl, rfl, rfl⟩
      · intro hn
        show updName u upd = u.name
        unfold updName
        rw [hn]
      · intro hp
        show updPicture u upd = u.picture
        unfold updPicture
        rw [hp]
      · intro ha
        show updActive u upd = u.isActive
        unfold updActive
        rw [ha]

/-- C6 witness: an empty update of the concrete stored user. -/
theorem c6_update_partial_frame_witness :
    updateUser stA 9 0 ⟨none, none, none⟩ = Except.ok (userA, stA) ∧
    ∀ upd u' st', updateUser stA 9 0 upd = Except.ok (u', st') →
      (upd.name = none → u'.name = userA.name) ∧
      (upd.picture = none → u'.picture = userA.picture) ∧
      (upd.isActive = none → u'.isActive = userA.isActive) ∧
      u'.email = userA.email ∧ u'.googleId = userA.googleId ∧
      u'._id = userA._id :=
  c6_update_partial_frame stA 9 0 userA (by decide)

/-- C9: `existsByEmail` is true exactly while some active record carries
the queried email (compared case-insensitively; stored emails being
lowercase at write time), and turns false once the matching record is
deactivated. -/
theorem c9_exists_by_email (st : DB) (e : String) (now uid : Nat)
    (u : UserRec)
    (hlowAll : ∀ r ∈ st.users, lowerStr r.email = r.email) :
    (existsByEmailService st e = true ↔
      ∃ r ∈ st.users, r.isActive = true ∧ lowerStr r.email = lowerStr e) ∧
    (findById st uid = some u → u.isActive = true → u.email = lowerStr e →
      (∀ r ∈ st.users, r.isActive = true → r.email = lowerStr e → r = u) →
      existsByEmailService st e = true ∧
      existsByEmailService (deactivateUserState st now uid) e = false) := by
  constructor
  · unfold existsByEmailService existsByEmailStore
    rw [List.any_eq_true]
    constructor
    · rintro ⟨r, hr, hp⟩
      simp only [Bool.and_eq_true, beq_iff_eq] at hp
      exact ⟨r, hr, hp.2, by rw [hlowAll r hr, hp.1]⟩
    · rintro ⟨r, hr, hact, hle⟩
      refine ⟨r, hr, ?_⟩
      have : r.email = lowerStr e := by rw [← hlowAll r hr, hle]
      simp [this, hact]
  · intro hf hua hue huniq
    obtain ⟨hum, huid⟩ := findById_spec hf
    constructor
    · unfold existsByEmailService existsByEmailStore
      rw [List.any_eq_true]
      exact ⟨u, hum, by simp [hue, hua]⟩
    · have hde : deactivateUserState st now uid =
          ⟨replaceById st.users uid { u with isActive := false, updatedAt := now },
           st.nextId⟩ := by
        simp only [deactivateUserState, deactivateUser, hf]
        rw [if_pos hua]
      rw [hde]
      unfold existsByEmailService existsByEmailStore
      rw [List.any_eq_false]
      intro r' hr'
      rcases mem_replaceById_strong hr' with h | ⟨hmem, hne⟩
      · subst h
        simp
      · intro hp
        simp only [Bool.and_eq_true, beq_iff_eq] at hp
        have : r' = u := huniq r' hmem hp.2 hp.1
        exact hne (by rw [this, huid])

/-- C9 witness: the concrete one-user store, queried with `A@X.com`,
before and after deactivating the user. -/
theorem c9_exists_by_email_witness :
    ((existsByEmailService stA "A@X.com" = true ↔
      ∃ r ∈ stA.users, r.isActive = true ∧
        lowerStr r.email = lowerStr "A@X.com") ∧
    (findById stA 0 = some userA → userA.isActive = true →
      userA.email = lowerStr "A@X.com" →
      (∀ r ∈ stA.users, r.isActive = true → r.email = lowerStr "A@X.com" →
        r = userA) →
      existsByEmailService stA "A@X.com" = true ∧
      existsByEmailService (deactivateUserState stA 4 0) "A@X.com" = false)) :=
  c9_exists_by_email stA "A@X.com" 4 0 userA (by decide)

/-- C8: deactivation is terminal through the public API — a record whose
active flag is false survives, byte for byte, any sequence of public
endpoint invocations (authenticate, getProfile, updateProfile,
deactivateProfile, signOut, existsByEmail): since the very record (inactive
as it is) remains a member of the final store, it is neither physically
deleted nor ever made active again. -/
theorem c8_deactivation_terminal (secret : String) (d : Nat)
    (ops : List PublicOp) (st : DB) (r : UserRec)
    (hInv : Inv st) (hr : r ∈ st.users) (hact : r.isActive = false) :
    r ∈ (runOps secret d st ops).users := by
  induction ops generalizing st with
  | nil => exact hr
  | cons op rest ih =>
    obtain ⟨h1, h2⟩ := step_preserves_inactive secret d op st r hInv hr hact
    simpa only [runOps, List.foldl_cons] using ih (step secret d st op) h2 h1

/-- C8 witness: the deactivated `userZ` survives a concrete six-request
sequence exercising every public endpoint. -/
theorem c8_deactivation_terminal_witness :
    userZ ∈ (runOps "s" 100 stAZ
      [.auth (Except.ok (some ⟨"g-7", some "n@x.com", some true, some "N",
          none, none, none, some 0, some 50, "aud", "iss"⟩)) 1,
       .updateProfile tokA ⟨some "A2", none, some true⟩ 2,
       .getProfile tokA 3,
       .existsByEmail "z@x.com",
       .deactivateProfile tokA 4,
       .signOut tokA 5]).users :=
  c8_deactivation_terminal "s" 100 _ stAZ userZ (by decide) (by decide)
    (by decide)

/-- C7 counterexample: deactivating `userA` via its session succeeds, yet a
subsequent getProfile with that session token is answered with 401
Unauthorized — the authentication middleware rejects tokens whose user is
inactive — and not with 404 NotFound as the claim states. -/
theorem c7_counterexample :
    (deactivateProfileApi stA "s" 1 tokA).1 = ApiResult.ok () ∧
    getProfileApi (deactivateProfileApi stA "s" 1 tokA).2 "s" 2 tokA
      = ApiResult.unauthorized ∧
    getProfileApi (deactivateProfileApi stA "s" 1 tokA).2 "s" 2 tokA
      ≠ ApiResult.notFound :=
  ⟨by decide, by decide, by decide⟩

/-- C7 (amended): deactivateProfile is idempotent in effect — the first
call flips the record's active flag to false, and any number of further
deactivateProfile calls (at any instants) leave the store exactly as after
the single call — and every subsequent getProfile with a session token
referencing the deactivated user fails with 401 Unauthorized (the
middleware rejects inactive users; not with 404 NotFound). -/
theorem c7_deactivate_idempotent_unauthorized (st : DB) (secret : String)
    (tok : JwtToken) (now1 : Nat) (dec : JwtClaims) (u : UserRec)
    (hv : verifyJwtToken secret now1 tok = Except.ok dec)
    (hf : findById st dec.userId = some u)
    (hua : u.isActive = true) :
    ((deactivateProfileApi st secret now1 tok).1 = ApiResult.ok () ∧
     findById (deactivateProfileApi st secret now1 tok).2 dec.userId
       = some { u with isActive := false, updatedAt := now1 }) ∧
    (∀ ts : List Nat,
      ts.foldl (fun s t => (deactivateProfileApi s secret t tok).2)
        (deactivateProfileApi st secret now1 tok).2
      = (deactivateProfileApi st secret now1 tok).2) ∧
    (∀ now2, getProfileApi (deactivateProfileApi st secret now1 tok).2
        secret now2 tok = ApiResult.unauthorized) := by
  have hMW : authenticateTokenMW st secret now1 tok = some dec := by
    simp [authenticateTokenMW, hv, hf, hua]
  have hDe : deactivateUser st now1 dec.userId = Except.ok
      ⟨replaceById st.users dec.userId
        { u with isActive := false, updatedAt := now1 }, st.nextId⟩ := by
    simp [deactivateUser, hf, hua]
  have hst1 : (deactivateProfileApi st secret now1 tok).2 =
      ⟨replaceById st.users dec.userId
        { u with isActive := false, updatedAt := now1 }, st.nextId⟩ := by
    simp [deactivateProfileApi, hMW, hDe]
  have hres1 : (deactivateProfileApi st secret now1 tok).1
      = ApiResult.ok () := by
    simp [deactivateProfileApi, hMW, hDe]
  have hf1 : findById
      (⟨replaceById st.users dec.userId
        { u with isActive := false, updatedAt := now1 }, st.nextId⟩ : DB)
      dec.userId = some { u with isActive := false, updatedAt := now1 } :=
    find_replaceById_self hf (findById_spec hf).2
  have hMW1 : ∀ t, authenticateTokenMW
      (⟨replaceById st.users dec.userId
        { u with isActive := false, updatedAt := now1 }, st.nextId⟩ : DB)
      secret t tok = none := by
    intro t
    unfold authenticateTokenMW
    cases hv2 : verifyJwtToken secret t tok with
    | error e => rfl
    | ok c =>
      have hc : c = tok.payload := verifyJwtToken_ok hv2
      have hdec : dec = tok.payload := verifyJwtToken_ok hv
      rw [hc, ← hdec]
      simp [hf1]
  refine ⟨⟨hres1, by rw [hst1]; exact hf1⟩, ?_, ?_⟩
  · intro ts
    have hfix : ∀ t, (deactivateProfileApi
        (⟨replaceById st.users dec.userId
          { u with isActive := false, updatedAt := now1 }, st.nextId⟩ : DB)
        secret t tok).2 =
        ⟨replaceById st.users dec.userId
          { u with isActive := false, updatedAt := now1 }, st.nextId⟩ := by
      intro t
      simp [deactivateProfileApi, hMW1 t]
    rw [hst1]
    induction ts with
    | nil => rfl
    | cons t ts ih =>
      rw [List.foldl_cons, hfix t]
      exact ih
  · intro now2
    rw [hst1]
    simp [getProfileApi, hMW1 now2]

/-- C7 witness: the concrete store and token, one extra pair of
deactivation calls and a later getProfile. -/
theorem c7_deactivate_idempotent_unauthorized_witness :
    (deactivateProfileApi stA "s" 1 tokA).1 = ApiResult.ok () ∧
    findById (deactivateProfileApi stA "s" 1 tokA).2 0
      = some { userA with isActive := false, updatedAt := 1 } ∧
    [7, 8].foldl (fun s t => (deactivateProfileApi s "s" t tokA).2)
        (deactivateProfileApi stA "s" 1 tokA).2
      = (deactivateProfileApi stA "s" 1 tokA).2 ∧
    getProfileApi (deactivateProfileApi stA "s" 1 tokA).2 "s" 9 tokA
      = ApiResult.unauthorized := by
  have h := c7_deactivate_idempotent_unauthorized stA "s" tokA 1
    ⟨0, "a@x.com"⟩ userA (by decide) (by decide) (by decide)
  exact ⟨h.1.1, h.1.2, h.2.1 [7, 8], h.2.2 9⟩

/-- C1 counterexample: two valid, verified assertions for the
previously-unseen subject id `g-1` on which authenticate creates nothing.
First, when an active record of a different subject (`g-2`) already holds
the asserted email, authenticate fails with the duplicate-email error.
Second, when the assertion carries no name claim (defaulted to the empty
string), the schema's required-name validation rejects the insert. In both
cases the claim's premises hold — the subject id is unseen and the
email-verified claim is true — yet no record is created and no token
returned. -/
theorem c1_counterexample :
    authenticateWithGoogle ⟨[⟨1, "g-2", "a@x.com", "B", none, true, 0, 0⟩], 2⟩
        5 (Except.ok (some ⟨"g-1", some "a@x.com", some true, some "A", none,
          none, none, some 0, some 99, "aud", "iss"⟩)) "s" 100
      = Except.error Err.userExists ∧
    (∀ r ∈ (⟨[⟨1, "g-2", "a@x.com", "B", none, true, 0, 0⟩], 2⟩ : DB).users,
      r.googleId ≠ "g-1") ∧
    authenticateWithGoogle ⟨[], 0⟩ 5
        (Except.ok (some ⟨"g-1", some "b@y.com", some true, none, none,
          none, none, some 0, some 99, "aud", "iss"⟩)) "s" 100
      = Except.error Err.validationFailed := by
  refine ⟨by decide, by decide, by decide⟩

/-- C1 (amended): for every valid, previously-unseen, email-verified
identity assertion whose claims satisfy the record schema (nonempty subject
id; nonempty trimmed name of at most 100 characters; nonempty normalised
email) and whose email — after the store's lowercase/trim normalisation —
is not already used by any existing record, authenticate creates exactly
one new active User Record populated from the assertion's claims and
returns a session token that verify accepts and decodes back to that
record's internal id and (normalised) email. -/
theorem c1_authenticate_new_user (st : DB) (raw : RawGooglePayload)
    (secret : String) (d now now2 : Nat)
    (hver : raw.email_verified = some true)
    (hsub : raw.sub ≠ "")
    (hname1 : trimStr (raw.name.getD "") ≠ "")
    (hname2 : (trimStr (raw.name.getD "")).length ≤ 100)
    (hemail0 : normEmail (raw.email.getD "") ≠ "")
    (hgid : ∀ r ∈ st.users, r.googleId ≠ raw.sub)
    (hem1 : ∀ r ∈ st.users, r.email ≠ lowerStr (raw.email.getD ""))
    (hem2 : ∀ r ∈ st.users, r.email ≠ normEmail (raw.email.getD ""))
    (hexp : now2 < now + d) :
    ∃ resp,
      authenticateWithGoogle st now (Except.ok (some raw)) secret d
        = Except.ok (resp,
            ⟨st.users ++ [newUserRec st now
              ⟨raw.sub, raw.email.getD "", raw.name.getD "", raw.picture⟩],
             st.nextId + 1⟩) ∧
      (newUserRec st now ⟨raw.sub, raw.email.getD "", raw.name.getD "",
        raw.picture⟩) =
        ⟨st.nextId, raw.sub, normEmail (raw.email.getD ""),
         trimStr (raw.name.getD ""), raw.picture, true, now, now⟩ ∧
      resp.user = transformUserToDto (newUserRec st now
        ⟨raw.sub, raw.email.getD "", raw.name.getD "", raw.picture⟩) ∧
      verifyJwtToken secret now2 resp.token
        = Except.ok ⟨st.nextId, normEmail (raw.email.getD "")⟩ := by
  have hvg : verifyGoogleToken (Except.ok (some raw)) = Except.ok
      ⟨raw.sub, raw.email.getD "", raw.email_verified.getD false,
       raw.name.getD "", raw.picture, raw.given_name, raw.family_name,
       raw.iat.getD 0, raw.exp.getD 0, raw.aud, raw.iss⟩ := rfl
  have hfe : findByEmail st (raw.email.getD "") = none := by
    apply List.find?_eq_none.mpr
    intro r hr
    simp [hem1 r hr]
  have hfg : findByGoogleId st raw.sub = none := by
    apply List.find?_eq_none.mpr
    intro r hr
    simp [hgid r hr]
  have hany : (st.users.any fun r =>
      r.googleId == raw.sub || r.email == normEmail (raw.email.getD ""))
        = false := by
    apply List.any_eq_false.mpr
    intro r hr
    simp [hgid r hr, hem2 r hr]
  have hcr := @createUser_success st now
    ⟨raw.sub, raw.email.getD "", raw.name.getD "", raw.picture⟩
    hfe hsub hemail0 hname1 hname2 hany
  refine ⟨⟨transformUserToDto (newUserRec st now
      ⟨raw.sub, raw.email.getD "", raw.name.getD "", raw.picture⟩),
      generateJwtToken secret st.nextId (normEmail (raw.email.getD ""))
        now d⟩, ?_, rfl, rfl, ?_⟩
  · unfold authenticateWithGoogle
    rw [hvg]
    dsimp only
    rw [hver]
    rw [if_neg (by decide)]
    rw [hfg]
    dsimp only
    rw [hcr]
    rfl
  · exact jwt_verify_generate secret st.nextId
      (normEmail (raw.email.getD "")) now d now2 hexp

/-- C1 witness: a fresh verified assertion against the one-user store,
checked end to end including the token round trip at instant 30. -/
theorem c1_authenticate_new_user_witness :
    ∃ resp,
      authenticateWithGoogle stA 20
          (Except.ok (some ⟨"g-3", some "c@z.com", some true, some "Cara",
            some "pic", none, none, some 0, some 99, "aud", "iss"⟩)) "s" 100
        = Except.ok (resp,
            ⟨stA.users ++ [newUserRec stA 20
              ⟨"g-3", some "c@z.com" |>.getD "",
               some "Cara" |>.getD "", some "pic"⟩],
             stA.nextId + 1⟩) ∧
      (newUserRec stA 20 ⟨"g-3", some "c@z.com" |>.getD "",
        some "Cara" |>.getD "", some "pic"⟩) =
        ⟨stA.nextId, "g-3", normEmail (some "c@z.com" |>.getD ""),
         trimStr (some "Cara" |>.getD ""), some "pic", true, 20, 20⟩ ∧
      resp.user = transformUserToDto (newUserRec stA 20
        ⟨"g-3", some "c@z.com" |>.getD "", some "Cara" |>.getD "",
         some "pic"⟩) ∧
      verifyJwtToken "s" 30 resp.token
        = Except.ok ⟨stA.nextId, normEmail (some "c@z.com" |>.getD "")⟩ :=
  c1_authenticate_new_user stA
    ⟨"g-3", some "c@z.com", some true, some "Cara", some "pic", none, none,
     some 0, some 99, "aud", "iss"⟩ "s" 100 20 30
    (by decide) (by decide) (by decide) (by decide) (by decide) (by decide)
    (by decide) (by decide) (by decide)

/-- C2 counterexample: three valid, verified assertions for an
already-known subject id on which the claim fails. First, when the known
record is inactive, the active-only lookup misses it, the create path runs
into the googleId unique index, and authenticate fails — name and picture
are not updated. Second, when the assertion carries no picture claim, the
record keeps its old picture instead of taking the assertion's (absent)
value: the store is returned unchanged while the stored picture and the
asserted picture differ. Third, when the assertion carries no name claim,
the required-name validation fails and nothing is updated. -/
theorem c2_counterexample :
    authenticateWithGoogle ⟨[⟨0, "g-1", "a@x.com", "A", none, false, 0, 0⟩], 1⟩
        5 (Except.ok (some ⟨"g-1", some "c@y.com", some true, some "N", none,
          none, none, some 0, some 99, "aud", "iss"⟩)) "s" 100
      = Except.error Err.duplicateKey ∧
    (authState ⟨[⟨0, "g-1", "a@x.com", "A", some "p.png", true, 0, 0⟩], 1⟩
        5 (Except.ok (some ⟨"g-1", some "a@x.com", some true, some "A", none,
          none, none, some 0, some 99, "aud", "iss"⟩)) "s" 100
      = ⟨[⟨0, "g-1", "a@x.com", "A", some "p.png", true, 0, 0⟩], 1⟩ ∧
     (⟨"g-1", some "a@x.com", some true, some "A", none, none, none, some 0,
       some 99, "aud", "iss"⟩ : RawGooglePayload).picture = none ∧
     (⟨0, "g-1", "a@x.com", "A", some "p.png", true, 0, 0⟩ : UserRec).picture
       = some "p.png") ∧
    authenticateWithGoogle ⟨[⟨0, "g-1", "a@x.com", "A", none, true, 0, 0⟩], 1⟩
        5 (Except.ok (some ⟨"g-1", some "a@x.com", some true, none, none,
          none, none, some 0, some 99, "aud", "iss"⟩)) "s" 100
      = Except.error Err.validationFailed :=
  ⟨by decide, ⟨by decide, by decide, by decide⟩, by decide⟩

/-- C2 (amended): for every valid, verified identity assertion whose
subject id has an ACTIVE User Record and whose name claim satisfies the
schema (nonempty trimmed name of at most 100 characters), authenticate
never creates a second record; the record's subject id and email are
unchanged; its name is updated to the assertion's (trimmed) name; its
picture is updated to the assertion's picture when the assertion carries
one and kept otherwise; and its active flag is untouched. -/
theorem c2_authenticate_known_active (st : DB) (raw : RawGooglePayload)
    (secret : String) (d now : Nat) (u : UserRec)
    (hnd : (st.users.map (fun r => r._id)).Nodup)
    (hver : raw.email_verified = some true)
    (hfind : findByGoogleId st raw.sub = some u)
    (hname1 : trimStr (raw.name.getD "") ≠ "")
    (hname2 : (trimStr (raw.name.getD "")).length ≤ 100) :
    ∃ u' resp st',
      authenticateWithGoogle st now (Except.ok (some raw)) secret d
        = Except.ok (resp, st') ∧
      u' ∈ st'.users ∧
      st'.users.length = st.users.length ∧
      u'._id = u._id ∧ u'.googleId = u.googleId ∧ u'.email = u.email ∧
      u'.name = trimStr (raw.name.getD "") ∧
      u'.picture = (match raw.picture with
        | some q => some q
        | none => u.picture) ∧
      u'.isActive = u.isActive ∧
      resp.user = transformUserToDto u' := by
  obtain ⟨hm, -, -⟩ := findByGoogleId_spec hfind
  have hfid : findById st u._id = some u := findById_of_mem hnd hm
  have hvg : verifyGoogleToken (Except.ok (some raw)) = Except.ok
      ⟨raw.sub, raw.email.getD "", raw.email_verified.getD false,
       raw.name.getD "", raw.picture, raw.given_name, raw.family_name,
       raw.iat.getD 0, raw.exp.getD 0, raw.aud, raw.iss⟩ := rfl
  have key : ∃ u' st',
      updateUser st now u._id
        ⟨some (raw.name.getD ""), raw.picture, none⟩ = Except.ok (u', st') ∧
      u' ∈ st'.users ∧
      st'.users.length = st.users.length ∧
      u'._id = u._id ∧ u'.googleId = u.googleId ∧ u'.email = u.email ∧
      u'.name = trimStr (raw.name.getD "") ∧
      u'.picture = (match raw.picture with
        | some q => some q
        | none => u.picture) ∧
      u'.isActive = u.isActive := by
    by_cases hmod : updName u ⟨some (raw.name.getD ""), raw.picture, none⟩
        = u.name ∧
        updPicture u ⟨some (raw.name.getD ""), raw.picture, none⟩
          = u.picture ∧
        updActive u ⟨some (raw.name.getD ""), raw.picture, none⟩
          = u.isActive
    · refine ⟨u, st, ?_, hm, rfl, rfl, rfl, rfl, hmod.1.symm,
        hmod.2.1.symm, rfl⟩
      simp only [updateUser, hfid]
      rw [if_pos hmod]
    · have hval : ¬(updName u ⟨some (raw.name.getD ""), raw.picture, none⟩
          = "" ∨
          (updName u ⟨some (raw.name.getD ""), raw.picture, none⟩).length
            > 100) := by
        push_neg
        refine ⟨hname1, ?_⟩
        show (trimStr (raw.name.getD "")).length ≤ 100
        omega
      have hupd : updateUser st now u._id
          ⟨some (raw.name.getD ""), raw.picture, none⟩ = Except.ok
            (applyUpdate u ⟨some (raw.name.getD ""), raw.picture, none⟩ now,
             ⟨replaceById st.users u._id
               (applyUpdate u ⟨some (raw.name.getD ""), raw.picture, none⟩
                 now), st.nextId⟩) := by
        simp only [updateUser, hfid]
        rw [if_neg hmod]
        rw [if_neg hval]
      refine ⟨applyUpdate u ⟨some (raw.name.getD ""), raw.picture, none⟩ now,
        _, hupd, updateUser_mem_replaced hupd, ?_, rfl, rfl, rfl, rfl, rfl,
        rfl⟩
      show (replaceById st.users u._id _).length = st.users.length
      unfold replaceById
      rw [List.length_map]
  obtain ⟨u', st', hupd, hmem, hlen, hif1, hif2, hif3, hif4, hif5, hif6⟩ :=
    key
  refine ⟨u', ⟨transformUserToDto u',
    generateJwtToken secret u'._id u'.email now d⟩, st', ?_, hmem, hlen,
    hif1, hif2, hif3, hif4, hif5, hif6, rfl⟩
  unfold authenticateWithGoogle
  rw [hvg]
  dsimp only
  rw [hver]
  rw [if_neg (by decide)]
  rw [hfind]
  dsimp only
  rw [hupd]

/-- C2 witness: a verified assertion for the known active `userA` carrying
a new name and a picture. -/
theorem c2_authenticate_known_active_witness :
    ∃ u' resp st',
      authenticateWithGoogle stA 7
          (Except.ok (some ⟨"g-1", some "a@x.com", some true, some "Bea",
            some "q.png", none, none, some 0, some 99, "aud", "iss"⟩))
          "s" 100
        = Except.ok (resp, st') ∧
      u' ∈ st'.users ∧
      st'.users.length = stA.users.length ∧
      u'._id = userA._id ∧ u'.googleId = userA.googleId ∧
      u'.email = userA.email ∧
      u'.name = trimStr ((some "Bea").getD "") ∧
      u'.picture = (match (some "q.png" : Option String) with
        | some q => some q
        | none => userA.picture) ∧
      u'.isActive = userA.isActive ∧
      resp.user = transformUserToDto u' :=
  c2_authenticate_known_active stA
    ⟨"g-1", some "a@x.com", some true, some "Bea", some "q.png", none, none,
     some 0, some 99, "aud", "iss"⟩ "s" 100 7 userA
    (by decide) (by decide) (by decide) (by decide) (by decide)

end UserAuth
